import Mathlib

/-!
Shallow embedding of the ChemExtractor enrichment pipeline (`src/app.py`).

The two web-service clients and the orchestrator are modelled as pure
functions over explicit service oracles:

* a PubChem oracle `String → Nat → PubchemResp` gives, for a compound name
  and a per-name attempt index, the outcome of one HTTP request;
* a ClassyFire oracle `Nat → ClassyResp` gives the outcome of the i-th
  request issued for one pipeline item; the random jitter of the backoff
  sleep is an injected `Nat → ℚ` stream.

Network-call counts are made observable by threading a call counter, and
the sleeps performed by `get_classyfire_info` are returned as a trace, so
retry bounds and the backoff schedule are provable statements.
-/

namespace ChemExtractor

/-- Per-compound property data built by `get_pubchem_info` in `src/app.py`:
the input name echoed back plus four individually optional fields
(SMILES, InChIKey, Molecular Formula, XLogP). -/
structure PropertyRecord where
  name : String
  smiles : Option String
  inchikey : Option String
  molecularFormula : Option String
  xlogp : Option ℚ
  deriving DecidableEq

/-- Classification data: the dict with keys Class, Subclass, Superclass
built by `get_classyfire_info` in `src/app.py`. -/
structure ClassificationRecord where
  Class : Option String
  Subclass : Option String
  Superclass : Option String
  deriving DecidableEq

/-- The all-`None` classification dict returned on a missing InChIKey or on
retry exhaustion. -/
def allAbsentClassification : ClassificationRecord :=
  ⟨none, none, none⟩

/-- One merged output row: `{**item, **classy}` in `process_file`.  The two
records contribute disjoint field sets. -/
structure EnrichedRecord where
  name : String
  smiles : Option String
  inchikey : Option String
  molecularFormula : Option String
  xlogp : Option ℚ
  Class : Option String
  Subclass : Option String
  Superclass : Option String
  deriving DecidableEq

/-- Merge of a property record with a classification record
(`combined = {**item, **classy}` in `src/app.py`). -/
def combineRecords (item : PropertyRecord) (classy : ClassificationRecord) : EnrichedRecord :=
  ⟨item.name, item.smiles, item.inchikey, item.molecularFormula, item.xlogp,
   classy.Class, classy.Subclass, classy.Superclass⟩

/-- Parsed payload of one successful PubChem response:
`props.get` on each of the four requested fields, each optional. -/
structure PubchemProps where
  smiles : Option String
  inchikey : Option String
  molecularFormula : Option String
  xlogp : Option ℚ
  deriving DecidableEq

/-- Outcome of one HTTP request to the properties service.
`transportError` covers timeouts and connection failures; `status code none`
is a response whose body fails to parse via
`response.json()['PropertyTable']['Properties'][0]` (malformed JSON or
missing result entry). -/
inductive PubchemResp where
  | transportError
  | status (code : Nat) (body : Option PubchemProps)
  deriving DecidableEq

/-- Model of `get_pubchem_info` (`src/app.py` lines 12-26): issues exactly
one request; `raise_for_status` raises for codes ≥ 400 and every exception
is swallowed into `None`; on success the input name is echoed back with the
four optional property fields. -/
def get_pubchem_info (compound_name : String) (resp : PubchemResp) : Option PropertyRecord :=
  match resp with
  | .transportError => none
  | .status code body =>
    if code < 400 then
      match body with
      | some props =>
        some ⟨compound_name, props.smiles, props.inchikey, props.molecularFormula, props.xlogp⟩
      | none => none
    else none

/-- Parsed payload of one successful ClassyFire response:
`d.get('class', \x7b\x7d).get('name')` and the two analogous fields, each
individually optional. -/
structure ClassyBody where
  className : Option String
  subclassName : Option String
  superclassName : Option String
  deriving DecidableEq

/-- Outcome of one HTTP request to the classification service. -/
inductive ClassyResp where
  | transportError
  | status (code : Nat) (body : Option ClassyBody)
  deriving DecidableEq

/-- Outcome of one attempt inside `get_classyfire_info`: `some record` when
the request succeeds (status < 400, body parses), `none` when the attempt
raises and the `except` branch runs. -/
def parseClassy (resp : ClassyResp) : Option ClassificationRecord :=
  match resp with
  | .transportError => none
  | .status code body =>
    if code < 400 then
      match body with
      | some b => some ⟨b.className, b.subclassName, b.superclassName⟩
      | none => none
    else none

/-- Python truthiness of the `inchikey` argument: `not inchikey` holds for
`None` and for the empty string. -/
def isFalsy (s : Option String) : Bool :=
  match s with
  | none => true
  | some t => t = ""

/-- The `for attempt in range(retries)` loop of `get_classyfire_info`:
on a failed attempt the code sleeps `base_delay + random.uniform(0, 1.5)`
(recorded in the returned trace) and tries again; a successful attempt
returns immediately.  Returns (record, next call-counter value, sleeps). -/
def classyAttemptLoop (oracle : Nat → ClassyResp) (jitter : Nat → ℚ) (base_delay : ℚ) :
    Nat → Nat → ClassificationRecord × Nat × List ℚ
  | 0, k => (allAbsentClassification, k, [])
  | fuel + 1, k =>
    match parseClassy (oracle k) with
    | some r => (r, k + 1, [])
    | none =>
      let rest := classyAttemptLoop oracle jitter base_delay fuel (k + 1)
      (rest.1, rest.2.1, (base_delay + jitter k) :: rest.2.2)

/-- Model of `get_classyfire_info` (`src/app.py` lines 29-45).  A falsy
`inchikey` short-circuits to the all-`None` dict with no request made;
otherwise up to `retries` requests are attempted.  The source defaults are
`retries = 3`, `base_delay = 1.5`. -/
def get_classyfire_info (inchikey : Option String) (oracle : Nat → ClassyResp)
    (jitter : Nat → ℚ) (retries : Nat) (base_delay : ℚ) (k : Nat) :
    ClassificationRecord × Nat × List ℚ :=
  if isFalsy inchikey then (allAbsentClassification, k, [])
  else classyAttemptLoop oracle jitter base_delay retries k

/-- The per-compound PubChem retry loop of `process_file` (lines 58-68):
`retries = 3` attempts, breaking on the first non-`None` result. -/
def stageARetry (poracle : String → Nat → PubchemResp) (compound : String) :
    Nat → Nat → Option PropertyRecord
  | 0, _ => none
  | fuel + 1, i =>
    match get_pubchem_info compound (poracle compound i) with
    | some d => some d
    | none => stageARetry poracle compound fuel (i + 1)

/-- The placeholder row appended when all PubChem attempts fail
(`src/app.py` lines 72-79): all fields `None` except the compound name. -/
def placeholderRecord (compound : String) : PropertyRecord :=
  ⟨compound, none, none, none, none⟩

/-- One stage-A item: the retry loop followed by the
`if data: ... else: placeholder` append (lines 70-79). -/
def stageAItem (poracle : String → Nat → PubchemResp) (compound : String) : PropertyRecord :=
  match stageARetry poracle compound 3 0 with
  | some d => d
  | none => placeholderRecord compound

/-- The per-item ClassyFire retry loop of `process_file` (lines 89-99):
up to `fuel` calls of `get_classyfire_info` (with the source defaults
`retries = 3`, `base_delay = 1.5`), breaking as soon as the returned dict
has `Class` not `None`; the variable `classy` carries the last result.
Returns the final value of `classy` and the service-call counter. -/
def stageBLoop (oracle : Nat → ClassyResp) (jitter : Nat → ℚ) (inchikey : Option String) :
    Nat → Nat → Option ClassificationRecord → Option ClassificationRecord × Nat
  | 0, k, classy => (classy, k)
  | fuel + 1, k, _classy =>
    let res := get_classyfire_info inchikey oracle jitter 3 (3/2) k
    if res.1.Class.isSome then (some res.1, res.2.1)
    else stageBLoop oracle jitter inchikey fuel res.2.1 (some res.1)

/-- One stage-B item: the retry loop started with `classy = None` and
`retries = 3`, then the `if classy: combined = {**item, **classy}` merge
with its `else` fallback (lines 101-104). -/
def stageBItem (coracle : String → Nat → ClassyResp) (jitter : Nat → ℚ)
    (item : PropertyRecord) : EnrichedRecord :=
  match (stageBLoop (coracle (item.inchikey.getD "")) jitter item.inchikey 3 0 none).1 with
  | some classy => combineRecords item classy
  | none => combineRecords item allAbsentClassification

/-- First-occurrence deduplication with an accumulator of already-seen
names; `uniqueFirstAux seen l` keeps, in order, the elements of `l` not in
`seen` at their first occurrence. -/
def uniqueFirstAux : List String → List String → List String
  | _, [] => []
  | seen, x :: xs =>
    if x ∈ seen then uniqueFirstAux seen xs
    else x :: uniqueFirstAux (x :: seen) xs

/-- Model of `df.iloc[:, 0].dropna().unique()` applied to the non-blank
cells: pandas `unique` keeps distinct values in order of first
appearance. -/
def uniqueFirst (l : List String) : List String :=
  uniqueFirstAux [] l

/-- The enrichment pipeline body of `process_file` (lines 48-114): blank
cells (`NaN`) are dropped, names are deduplicated preserving first
occurrence, stage A resolves properties per name, stage B classifies each
stage-A item in the same order, one merged row per name. -/
def pipeline (poracle : String → Nat → PubchemResp) (coracle : String → Nat → ClassyResp)
    (jitter : Nat → ℚ) (cells : List (Option String)) : List EnrichedRecord :=
  let compound_names := uniqueFirst (cells.filterMap id)
  (compound_names.map (stageAItem poracle)).map (stageBItem coracle jitter)

/-- Model of `process_file`: the argument models the outcome of
`pd.read_excel` (an unreadable file raises, which propagates to the
caller); a readable first column runs the pipeline and returns normally. -/
def process_file (poracle : String → Nat → PubchemResp) (coracle : String → Nat → ClassyResp)
    (jitter : Nat → ℚ) (file : Except String (List (Option String))) :
    Except String (List EnrichedRecord) :=
  match file with
  | .error e => .error e
  | .ok cells => .ok (pipeline poracle coracle jitter cells)

/-- Stage-A progress values: `progress_bar.progress((i + 1) / len(compound_names) * 0.5)`
for `i = 0, …, n-1` (line 81). -/
def stageAReports (n : Nat) : List ℚ :=
  (List.range n).map (fun i : Nat => ((i : ℚ) + 1) / (n : ℚ) * (1/2))

/-- Stage-B progress values: `progress_bar.progress(0.5 + (i + 1) / len(pubchem_results) * 0.5)`
for `i = 0, …, n-1` (line 107); `pubchem_results` has the same length `n`. -/
def stageBReports (n : Nat) : List ℚ :=
  (List.range n).map (fun i : Nat => 1/2 + ((i : ℚ) + 1) / (n : ℚ) * (1/2))

/-- The full sequence of fractions sent to the progress bar in one run:
the initial `st.progress(0)` (line 55), then the stage-A updates, then the
stage-B updates. -/
def progressReports (n : Nat) : List ℚ :=
  0 :: (stageAReports n ++ stageBReports n)

/-- When every attempt fails, the attempt loop returns the all-absent
record and advances the call counter by exactly the number of attempts. -/
theorem classyAttemptLoop_fail_eq (oracle : Nat → ClassyResp) (jitter : Nat → ℚ) (base : ℚ)
    (hfail : ∀ i, parseClassy (oracle i) = none) :
    ∀ fuel k, (classyAttemptLoop oracle jitter base fuel k).1 = allAbsentClassification ∧
      (classyAttemptLoop oracle jitter base fuel k).2.1 = k + fuel := by
  intro fuel
  induction fuel with
  | zero => intro k; simp [classyAttemptLoop]
  | succ n ih =>
    intro k
    simp only [classyAttemptLoop, hfail k]
    refine ⟨(ih (k + 1)).1, ?_⟩
    rw [(ih (k + 1)).2]
    omega

/-- Every sleep performed by the attempt loop is `base_delay` plus one
jitter draw. -/
theorem classyAttemptLoop_sleep_mem (oracle : Nat → ClassyResp) (jitter : Nat → ℚ) (base : ℚ) :
    ∀ fuel k s, s ∈ (classyAttemptLoop oracle jitter base fuel k).2.2 →
      ∃ i, s = base + jitter i := by
  intro fuel
  induction fuel with
  | zero => intro k s hs; simp [classyAttemptLoop] at hs
  | succ n ih =>
    intro k s hs
    rcases hp : parseClassy (oracle k) with _ | r
    · simp only [classyAttemptLoop, hp, List.mem_cons] at hs
      rcases hs with h | h
      · exact ⟨k, h⟩
      · exact ih (k + 1) s h
    · simp only [classyAttemptLoop, hp, List.not_mem_nil] at hs

/-- C3: if the classification service fails on every attempt for a present
(non-falsy) structural key, `get_classyfire_info` makes exactly `retries`
service calls before giving up and returns the all-absent
ClassificationRecord as a normal value (the function is total; no error
value is produced). -/
theorem classyfire_retry_bound (key : Option String) (oracle : Nat → ClassyResp)
    (jitter : Nat → ℚ) (base : ℚ) (retries k : Nat)
    (hkey : isFalsy key = false) (hfail : ∀ i, parseClassy (oracle i) = none) :
    (get_classyfire_info key oracle jitter retries base k).1 = allAbsentClassification ∧
    (get_classyfire_info key oracle jitter retries base k).2.1 = k + retries := by
  unfold get_classyfire_info
  rw [hkey]
  simp only [Bool.false_eq_true, if_false]
  exact classyAttemptLoop_fail_eq oracle jitter base hfail retries k

/-- Witness for `classyfire_retry_bound`: a concrete always-failing service
with key "ABC" and `retries = 3` yields exactly 3 calls and the all-absent
record. -/
theorem classyfire_retry_bound_witness :
    (get_classyfire_info (some "ABC") (fun _ => ClassyResp.transportError)
        (fun _ => 0) 3 (3/2) 0).1 = allAbsentClassification ∧
    (get_classyfire_info (some "ABC") (fun _ => ClassyResp.transportError)
        (fun _ => 0) 3 (3/2) 0).2.1 = 0 + 3 :=
  classyfire_retry_bound (some "ABC") (fun _ => ClassyResp.transportError) (fun _ => 0)
    (3/2) 3 0 (by decide) (fun _ => rfl)

/-- C4 counterexample: with `base_delay = 3/2`, zero jitter and an
always-failing service, the code sleeps `[3/2, 3/2, 3/2]` — the delay
before the second retry is `3/2`, not the claimed
`baseDelay * 2 ^ (attempt - 1) + jitter = 3/2 * 2 ^ (2 - 1) + 0 = 3`. -/
theorem classyfire_backoff_not_exponential :
    (get_classyfire_info (some "ABC") (fun _ => ClassyResp.transportError)
        (fun _ => 0) 3 (3/2) 0).2.2 = [3/2, 3/2, 3/2] ∧
    ¬ ((3/2 : ℚ) = 3/2 * 2 ^ (2 - 1) + 0) := by
  constructor
  · norm_num [get_classyfire_info, isFalsy, classyAttemptLoop, parseClassy]
    simp only [String.reduceEq, if_false]
  · norm_num

/-- C4 amended: every sleep of `get_classyfire_info` equals `base_delay`
plus one jitter draw from `[0, 3/2)`; the base term is constant across
attempts, so each delay lies in `[base_delay, base_delay + 3/2)` (and in
particular does not grow exponentially). -/
theorem classyfire_backoff_constant (key : Option String) (oracle : Nat → ClassyResp)
    (jitter : Nat → ℚ) (base : ℚ) (retries k : Nat)
    (hj : ∀ i, 0 ≤ jitter i ∧ jitter i < 3/2) :
    ∀ s ∈ (get_classyfire_info key oracle jitter retries base k).2.2,
      (∃ i, s = base + jitter i) ∧ base ≤ s ∧ s < base + 3/2 := by
  intro s hs
  unfold get_classyfire_info at hs
  by_cases hf : isFalsy key = true
  · rw [hf] at hs
    simp at hs
  · rw [Bool.not_eq_true] at hf
    rw [hf] at hs
    simp only [Bool.false_eq_true, if_false] at hs
    obtain ⟨i, rfl⟩ := classyAttemptLoop_sleep_mem oracle jitter base retries k s hs
    refine ⟨⟨i, rfl⟩, ?_, ?_⟩
    · have := (hj i).1
      linarith
    · have := (hj i).2
      linarith

/-- Witness for `classyfire_backoff_constant`: with `base_delay = 3/2` and
constant jitter 1 the sleep `5/2` occurs and satisfies the bounds. -/
theorem classyfire_backoff_constant_witness :
    (5/2 : ℚ) ∈ (get_classyfire_info (some "K") (fun _ => ClassyResp.transportError)
        (fun _ => 1) 3 (3/2) 0).2.2 ∧
    ((∃ i : Nat, (5/2 : ℚ) = 3/2 + (fun _ : Nat => (1 : ℚ)) i) ∧
      (3/2 : ℚ) ≤ 5/2 ∧ (5/2 : ℚ) < 3/2 + 3/2) :=
  ⟨by
    norm_num [get_classyfire_info, isFalsy, classyAttemptLoop, parseClassy]
    simp only [String.reduceEq, if_false]
    norm_num,
   classyfire_backoff_constant (some "K") (fun _ => ClassyResp.transportError) (fun _ => 1)
     (3/2) 3 0 (fun _ => by norm_num) (5/2)
     (by
       norm_num [get_classyfire_info, isFalsy, classyAttemptLoop, parseClassy]
       simp only [String.reduceEq, if_false]
       norm_num)⟩

/-- With a falsy key the stage-B loop never consults the service oracle, so
its result is the same for any two oracles. -/
theorem stageBLoop_falsy (o o' : Nat → ClassyResp) (jitter : Nat → ℚ) (key : Option String)
    (hkey : isFalsy key = true) :
    ∀ fuel k cl, stageBLoop o jitter key fuel k cl = stageBLoop o' jitter key fuel k cl := by
  intro fuel
  induction fuel with
  | zero => intro k cl; rfl
  | succ n ih =>
    intro k cl
    simp only [stageBLoop, get_classyfire_info, hkey, if_true, allAbsentClassification,
      Option.isSome_none, Bool.false_eq_true, if_false]
    exact ih k _

/-- C6: with an absent structural key the classification client returns the
all-absent record immediately — the call counter is unchanged and no sleep
happens — and a PropertyRecord whose `inchikey` is absent never triggers a
service request in stage B (the stage-B result is independent of the
classification oracle). -/
theorem skip_on_missing_key (oracle : Nat → ClassyResp) (jitter : Nat → ℚ)
    (base : ℚ) (retries k : Nat) (c c' : String → Nat → ClassyResp)
    (item : PropertyRecord) (hkey : item.inchikey = none) :
    get_classyfire_info none oracle jitter retries base k = (allAbsentClassification, k, []) ∧
    stageBItem c jitter item = stageBItem c' jitter item := by
  constructor
  · rfl
  · unfold stageBItem
    rw [hkey]
    rw [stageBLoop_falsy (c ((none : Option String).getD ""))
      (c' ((none : Option String).getD "")) jitter none rfl 3 0 none]

/-- Witness for `skip_on_missing_key`: a placeholder record (absent key)
gives the same stage-B output under an always-failing oracle and under an
oracle that would always succeed. -/
theorem skip_on_missing_key_witness :
    get_classyfire_info none (fun _ => ClassyResp.transportError) (fun _ => 0) 3 (3/2) 0
      = (allAbsentClassification, 0, []) ∧
    stageBItem (fun _ _ => ClassyResp.transportError) (fun _ => 0) (placeholderRecord "X")
      = stageBItem (fun _ _ => ClassyResp.status 200 (some ⟨some "a", some "b", some "c"⟩))
          (fun _ => 0) (placeholderRecord "X") :=
  skip_on_missing_key (fun _ => ClassyResp.transportError) (fun _ => 0) (3/2) 3 0
    (fun _ _ => ClassyResp.transportError)
    (fun _ _ => ClassyResp.status 200 (some ⟨some "a", some "b", some "c"⟩))
    (placeholderRecord "X") rfl

/-- C7: the property-lookup client issues exactly one request per call (it
is a function of a single response, with no retry loop) and never lets an
exception escape: any transport error, non-success status (≥ 400), or
malformed/missing body yields `none`, while a success echoes the input name
with each of the four property fields individually optional. -/
theorem pubchem_client_contract :
    (∀ name : String, get_pubchem_info name PubchemResp.transportError = none) ∧
    (∀ (name : String) (code : Nat) (body : Option PubchemProps),
      400 ≤ code → get_pubchem_info name (PubchemResp.status code body) = none) ∧
    (∀ (name : String) (code : Nat),
      code < 400 → get_pubchem_info name (PubchemResp.status code none) = none) ∧
    (∀ (name : String) (code : Nat) (props : PubchemProps),
      code < 400 → get_pubchem_info name (PubchemResp.status code (some props)) =
        some ⟨name, props.smiles, props.inchikey, props.molecularFormula, props.xlogp⟩) := by
  refine ⟨fun name => rfl, ?_, ?_, ?_⟩
  · intro name code body h
    simp [get_pubchem_info, Nat.not_lt.mpr h]
  · intro name code h
    simp [get_pubchem_info, h]
  · intro name code props h
    simp [get_pubchem_info, h]

/-- Witness for `pubchem_client_contract`: a concrete 200 response with a
parsed entry yields the echoed record. -/
theorem pubchem_client_contract_witness :
    get_pubchem_info "aspirin"
        (PubchemResp.status 200 (some ⟨some "CC(=O)Oc1ccccc1C(=O)O", some "BSYNRYMUTXBXSQ",
          some "C9H8O4", some 1⟩)) =
      some ⟨"aspirin", some "CC(=O)Oc1ccccc1C(=O)O", some "BSYNRYMUTXBXSQ",
        some "C9H8O4", some 1⟩ :=
  pubchem_client_contract.2.2.2 "aspirin" 200
    ⟨some "CC(=O)Oc1ccccc1C(=O)O", some "BSYNRYMUTXBXSQ", some "C9H8O4", some 1⟩
    (by norm_num)

/-- With a present (non-falsy) key the client is exactly its attempt
loop. -/
theorem get_classyfire_info_present (key : Option String) (o : Nat → ClassyResp)
    (j : Nat → ℚ) (r : Nat) (b : ℚ) (k : Nat) (hkey : isFalsy key = false) :
    get_classyfire_info key o j r b k = classyAttemptLoop o j b r k := by
  unfold get_classyfire_info
  rw [hkey]
  simp

/-- A successful first attempt returns immediately after one call, with no
sleep. -/
theorem classyAttemptLoop_succ_success (o : Nat → ClassyResp) (j : Nat → ℚ) (b : ℚ)
    (n k : Nat) (r : ClassificationRecord) (h : parseClassy (o k) = some r) :
    classyAttemptLoop o j b (n + 1) k = (r, k + 1, []) := by
  simp only [classyAttemptLoop, h]

/-- Once `classy` holds a value, the stage-B loop always ends with `some`. -/
theorem stageBLoop_some (o : Nat → ClassyResp) (jitter : Nat → ℚ) (key : Option String) :
    ∀ fuel k c0, (stageBLoop o jitter key fuel k (some c0)).1.isSome = true := by
  intro fuel
  induction fuel with
  | zero => intro k c0; rfl
  | succ n ih =>
    intro k c0
    simp only [stageBLoop]
    by_cases h : (get_classyfire_info key o jitter 3 (3/2) k).1.Class.isSome = true
    · rw [if_pos h]
      rfl
    · rw [if_neg h]
      exact ih _ _

/-- With positive fuel the stage-B loop started at `classy = None` also ends
with `some`: its first iteration assigns `classy` before any test. -/
theorem stageBLoop_succ_none_isSome (o : Nat → ClassyResp) (jitter : Nat → ℚ)
    (key : Option String) (n k : Nat) :
    (stageBLoop o jitter key (n + 1) k none).1.isSome = true := by
  simp only [stageBLoop]
  by_cases h : (get_classyfire_info key o jitter 3 (3/2) k).1.Class.isSome = true
  · rw [if_pos h]
    rfl
  · rw [if_neg h]
    exact stageBLoop_some o jitter key n _ _

/-- C10: the classification client is total — every call returns a
three-field ClassificationRecord, never an absent value (in the embedding
its return type is `ClassificationRecord`, matching the source where every
path returns the three-key dict and every exception is caught).
Consequently, after the stage-B retry loop the variable `classy` is always
a dict, and the pipeline's fallback branch for a falsy `classy`
(line 104 of `src/app.py`) is unreachable: the merged row always comes from
the `[some]` branch. -/
theorem classification_total_no_fallback (c : String → Nat → ClassyResp) (jitter : Nat → ℚ)
    (item : PropertyRecord) :
    ∃ cls, (stageBLoop (c (item.inchikey.getD "")) jitter item.inchikey 3 0 none).1 = some cls ∧
      stageBItem c jitter item = combineRecords item cls := by
  have h : (stageBLoop (c (item.inchikey.getD "")) jitter item.inchikey 3 0 none).1.isSome :=
    stageBLoop_succ_none_isSome (c (item.inchikey.getD "")) jitter item.inchikey 2 0
  obtain ⟨cls, hcls⟩ := Option.isSome_iff_exists.mp h
  refine ⟨cls, hcls, ?_⟩
  unfold stageBItem
  rw [hcls]

/-- C8: the stricter ClassyFire policy of `process_file` (lines 92-99)
treats a transport-successful response whose top-level Class field is
absent exactly like a transport failure: both exhaust the orchestrator's
3 retries instead of stopping at the first nominally successful response.
With a success-but-no-Class service each client call costs one service
request, so 3 requests are made (one per orchestrator attempt) and the
no-Class record is kept; with an always-failing transport each client call
costs 3 requests, so 9 are made and the all-absent record is kept. -/
theorem strict_class_retry (jitter : Nat → ℚ) (key : Option String)
    (s1 s2 : Option String) (hkey : isFalsy key = false) :
    stageBLoop (fun _ => ClassyResp.status 200 (some ⟨none, s1, s2⟩)) jitter key 3 0 none
      = (some ⟨none, s1, s2⟩, 3) ∧
    stageBLoop (fun _ => ClassyResp.transportError) jitter key 3 0 none
      = (some allAbsentClassification, 9) := by
  constructor
  · have hok : ∀ k, get_classyfire_info key
        (fun _ => ClassyResp.status 200 (some ⟨none, s1, s2⟩)) jitter 3 (3/2) k
        = (⟨none, s1, s2⟩, k + 1, []) := by
      intro k
      rw [get_classyfire_info_present key _ jitter 3 (3/2) k hkey]
      exact classyAttemptLoop_succ_success _ jitter (3/2) 2 k _ (by simp [parseClassy])
    simp only [stageBLoop, hok, Option.isSome_none, Bool.false_eq_true, if_false]
  · have h1 : ∀ k, (get_classyfire_info key
        (fun _ => ClassyResp.transportError) jitter 3 (3/2) k).1 = allAbsentClassification := by
      intro k
      rw [get_classyfire_info_present key _ jitter 3 (3/2) k hkey]
      exact (classyAttemptLoop_fail_eq (fun _ => ClassyResp.transportError) jitter (3/2)
        (fun _ => rfl) 3 k).1
    have h2 : ∀ k, (get_classyfire_info key
        (fun _ => ClassyResp.transportError) jitter 3 (3/2) k).2.1 = k + 3 := by
      intro k
      rw [get_classyfire_info_present key _ jitter 3 (3/2) k hkey]
      exact (classyAttemptLoop_fail_eq (fun _ => ClassyResp.transportError) jitter (3/2)
        (fun _ => rfl) 3 k).2
    simp only [stageBLoop, h1, h2, allAbsentClassification, Option.isSome_none,
      Bool.false_eq_true, if_false]

/-- Witness for `strict_class_retry` at a concrete key and fixture data. -/
theorem strict_class_retry_witness :
    stageBLoop (fun _ => ClassyResp.status 200 (some ⟨none, some "sub", some "sup"⟩))
        (fun _ => 0) (some "ABC") 3 0 none
      = (some ⟨none, some "sub", some "sup"⟩, 3) ∧
    stageBLoop (fun _ => ClassyResp.transportError) (fun _ => 0) (some "ABC") 3 0 none
      = (some allAbsentClassification, 9) :=
  strict_class_retry (fun _ => 0) (some "ABC") (some "sub") (some "sup") (by decide)

/-- Membership in the deduplicated list: kept iff present in the input and
not already seen. -/
theorem mem_uniqueFirstAux (l : List String) :
    ∀ seen a, a ∈ uniqueFirstAux seen l ↔ a ∈ l ∧ a ∉ seen := by
  induction l with
  | nil => intro seen a; simp [uniqueFirstAux]
  | cons y ys ih =>
    intro seen a
    by_cases hy : y ∈ seen
    · rw [uniqueFirstAux, if_pos hy, ih seen a]
      simp only [List.mem_cons]
      constructor
      · rintro ⟨h1, h2⟩
        exact ⟨Or.inr h1, h2⟩
      · rintro ⟨h1 | h1, h2⟩
        · exact absurd (h1 ▸ hy) h2
        · exact ⟨h1, h2⟩
    · rw [uniqueFirstAux, if_neg hy]
      simp only [List.mem_cons, ih (y :: seen) a, List.mem_cons]
      constructor
      · rintro (rfl | ⟨h1, h2⟩)
        · exact ⟨Or.inl rfl, hy⟩
        · exact ⟨Or.inr h1, fun hs => h2 (Or.inr hs)⟩
      · rintro ⟨rfl | h1, h2⟩
        · exact Or.inl rfl
        · by_cases hay : a = y
          · exact Or.inl hay
          · refine Or.inr ⟨h1, fun hs => ?_⟩
            rcases hs with hh | hh
            · exact hay hh
            · exact h2 hh

/-- The deduplicated list has no duplicates. -/
theorem nodup_uniqueFirstAux (l : List String) : ∀ seen, (uniqueFirstAux seen l).Nodup := by
  induction l with
  | nil => intro seen; simp [uniqueFirstAux]
  | cons y ys ih =>
    intro seen
    by_cases hy : y ∈ seen
    · rw [uniqueFirstAux, if_pos hy]
      exact ih seen
    · rw [uniqueFirstAux, if_neg hy]
      refine List.nodup_cons.mpr ⟨?_, ih (y :: seen)⟩
      rw [mem_uniqueFirstAux]
      rintro ⟨-, h2⟩
      exact h2 (List.mem_cons_self y seen)

/-- The deduplicated list is ordered by position of first occurrence in the
input list. -/
theorem pairwise_uniqueFirstAux (l : List String) :
    ∀ seen, (uniqueFirstAux seen l).Pairwise (fun a b => l.indexOf a < l.indexOf b) := by
  induction l with
  | nil => intro seen; simp [uniqueFirstAux]
  | cons y ys ih =>
    intro seen
    by_cases hy : y ∈ seen
    · rw [uniqueFirstAux, if_pos hy]
      refine (ih seen).imp_of_mem ?_
      intro a b ha hb hlt
      rw [mem_uniqueFirstAux] at ha hb
      have hay : a ≠ y := fun h => ha.2 (h ▸ hy)
      have hby : b ≠ y := fun h => hb.2 (h ▸ hy)
      rw [List.indexOf_cons_ne ys (Ne.symm hay), List.indexOf_cons_ne ys (Ne.symm hby)]
      exact Nat.succ_lt_succ hlt
    · rw [uniqueFirstAux, if_neg hy]
      refine List.pairwise_cons.mpr ⟨?_, ?_⟩
      · intro b hb
        rw [mem_uniqueFirstAux] at hb
        have hby : b ≠ y := fun h => hb.2 (h ▸ List.mem_cons_self y seen)
        rw [List.indexOf_cons_self, List.indexOf_cons_ne ys (Ne.symm hby)]
        exact Nat.succ_pos _
      · refine (ih (y :: seen)).imp_of_mem ?_
        intro a b ha hb hlt
        rw [mem_uniqueFirstAux] at ha hb
        have hay : a ≠ y := fun h => ha.2 (h ▸ List.mem_cons_self y seen)
        have hby : b ≠ y := fun h => hb.2 (h ▸ List.mem_cons_self y seen)
        rw [List.indexOf_cons_ne ys (Ne.symm hay), List.indexOf_cons_ne ys (Ne.symm hby)]
        exact Nat.succ_lt_succ hlt

/-- A successful PubChem lookup echoes the requested name. -/
theorem get_pubchem_info_name (name : String) (resp : PubchemResp) (d : PropertyRecord)
    (h : get_pubchem_info name resp = some d) : d.name = name := by
  cases resp with
  | transportError => exact absurd h (by simp [get_pubchem_info])
  | status code body =>
    simp only [get_pubchem_info] at h
    by_cases hc : code < 400
    · rw [if_pos hc] at h
      cases body with
      | none => exact absurd h (by simp)
      | some props =>
        injection h with h
        rw [← h]
    · rw [if_neg hc] at h
      exact absurd h (by simp)

/-- The stage-A retry loop only returns records echoing the requested
name. -/
theorem stageARetry_name (poracle : String → Nat → PubchemResp) (compound : String) :
    ∀ fuel i d, stageARetry poracle compound fuel i = some d → d.name = compound := by
  intro fuel
  induction fuel with
  | zero => intro i d h; exact absurd h (by simp [stageARetry])
  | succ n ih =>
    intro i d h
    rw [stageARetry] at h
    cases hp : get_pubchem_info compound (poracle compound i) with
    | some r =>
      rw [hp] at h
      injection h with h
      exact h ▸ get_pubchem_info_name compound (poracle compound i) r hp
    | none =>
      rw [hp] at h
      exact ih (i + 1) d h

/-- Every stage-A item carries the compound name it was built for, whether
the lookup succeeded or the placeholder was appended. -/
theorem stageAItem_name (poracle : String → Nat → PubchemResp) (compound : String) :
    (stageAItem poracle compound).name = compound := by
  unfold stageAItem
  cases h : stageARetry poracle compound 3 0 with
  | some d => exact stageARetry_name poracle compound 3 0 d h
  | none => rfl

/-- Stage B only adds classification fields: the name is preserved. -/
theorem stageBItem_name (coracle : String → Nat → ClassyResp) (jitter : Nat → ℚ)
    (item : PropertyRecord) : (stageBItem coracle jitter item).name = item.name := by
  unfold stageBItem
  cases (stageBLoop (coracle (item.inchikey.getD "")) jitter item.inchikey 3 0 none).1 with
  | some classy => rfl
  | none => rfl

/-- Stage B preserves all four property fields of its item. -/
theorem stageBItem_props (coracle : String → Nat → ClassyResp) (jitter : Nat → ℚ)
    (item : PropertyRecord) :
    (stageBItem coracle jitter item).smiles = item.smiles ∧
    (stageBItem coracle jitter item).inchikey = item.inchikey ∧
    (stageBItem coracle jitter item).molecularFormula = item.molecularFormula ∧
    (stageBItem coracle jitter item).xlogp = item.xlogp := by
  unfold stageBItem
  cases (stageBLoop (coracle (item.inchikey.getD "")) jitter item.inchikey 3 0 none).1 with
  | some classy => exact ⟨rfl, rfl, rfl, rfl⟩
  | none => exact ⟨rfl, rfl, rfl, rfl⟩

/-- The names of the pipeline output are exactly the deduplicated input
names, in order. -/
theorem pipeline_names (poracle : String → Nat → PubchemResp)
    (coracle : String → Nat → ClassyResp) (jitter : Nat → ℚ) (cells : List (Option String)) :
    (pipeline poracle coracle jitter cells).map EnrichedRecord.name
      = uniqueFirst (cells.filterMap id) := by
  unfold pipeline
  generalize uniqueFirst (cells.filterMap id) = names
  induction names with
  | nil => rfl
  | cons x xs ih =>
    simp only [List.map_cons, stageBItem_name, stageAItem_name]
    rw [ih]

/-- C1: the pipeline emits exactly one EnrichedRecord per distinct
non-blank input name — the output names are duplicate-free, a name appears
iff it occurs as a non-blank cell, and output order is the order of first
appearance in the input (first-occurrence indices strictly increase along
the output). -/
theorem pipeline_dedup_first_occurrence (poracle : String → Nat → PubchemResp)
    (coracle : String → Nat → ClassyResp) (jitter : Nat → ℚ) (cells : List (Option String)) :
    ((pipeline poracle coracle jitter cells).map EnrichedRecord.name).Nodup ∧
    (∀ x, x ∈ (pipeline poracle coracle jitter cells).map EnrichedRecord.name ↔
      some x ∈ cells) ∧
    ((pipeline poracle coracle jitter cells).map EnrichedRecord.name).Pairwise
      (fun a b => (cells.filterMap id).indexOf a < (cells.filterMap id).indexOf b) := by
  rw [pipeline_names]
  refine ⟨nodup_uniqueFirstAux _ [], ?_, pairwise_uniqueFirstAux _ []⟩
  intro x
  rw [uniqueFirst, mem_uniqueFirstAux]
  simp [List.mem_filterMap]

/-- All stage-A attempts failing produces the placeholder. -/
theorem stageARetry_allFail (poracle : String → Nat → PubchemResp) (compound : String)
    (hfail : ∀ i, get_pubchem_info compound (poracle compound i) = none) :
    ∀ fuel i, stageARetry poracle compound fuel i = none := by
  intro fuel
  induction fuel with
  | zero => intro i; rfl
  | succ n ih =>
    intro i
    rw [stageARetry, hfail i]
    exact ih (i + 1)

/-- C2: a unique non-blank input name whose PubChem lookup fails on every
orchestrator attempt is still emitted, as a placeholder row whose name is
the input name and whose SMILES, InChIKey, Molecular Formula and XLogP are
all absent; and no non-blank input name is ever dropped from the output. -/
theorem pipeline_no_loss_on_failure (poracle : String → Nat → PubchemResp)
    (coracle : String → Nat → ClassyResp) (jitter : Nat → ℚ) (cells : List (Option String))
    (x : String) (hx : some x ∈ cells)
    (hfail : ∀ i, get_pubchem_info x (poracle x i) = none) :
    (∃ r ∈ pipeline poracle coracle jitter cells,
      r.name = x ∧ r.smiles = none ∧ r.inchikey = none ∧
      r.molecularFormula = none ∧ r.xlogp = none) ∧
    (∀ y, some y ∈ cells → ∃ r ∈ pipeline poracle coracle jitter cells, r.name = y) := by
  have hmem : ∀ y, some y ∈ cells → y ∈ uniqueFirst (cells.filterMap id) := by
    intro y hy
    rw [uniqueFirst, mem_uniqueFirstAux]
    refine ⟨?_, List.not_mem_nil y⟩
    rw [List.mem_filterMap]
    exact ⟨some y, hy, rfl⟩
  constructor
  · have hitem : stageAItem poracle x = placeholderRecord x := by
      unfold stageAItem
      rw [stageARetry_allFail poracle x hfail 3 0]
    refine ⟨stageBItem coracle jitter (placeholderRecord x), ?_, ?_⟩
    · unfold pipeline
      have hm := List.mem_map_of_mem (stageAItem poracle) (hmem x hx)
      rw [hitem] at hm
      exact List.mem_map_of_mem (stageBItem coracle jitter) hm
    · obtain ⟨h1, h2, h3, h4⟩ := stageBItem_props coracle jitter (placeholderRecord x)
      rw [stageBItem_name]
      exact ⟨rfl, by rw [h1]; rfl, by rw [h2]; rfl, by rw [h3]; rfl, by rw [h4]; rfl⟩
  · intro y hy
    refine ⟨stageBItem coracle jitter (stageAItem poracle y), ?_, ?_⟩
    · unfold pipeline
      exact List.mem_map_of_mem (stageBItem coracle jitter)
        (List.mem_map_of_mem (stageAItem poracle) (hmem y hy))
    · rw [stageBItem_name, stageAItem_name]

/-- Witness for `pipeline_no_loss_on_failure`: one input name, every
service failing. -/
theorem pipeline_no_loss_on_failure_witness :
    ∃ r ∈ pipeline (fun _ _ => PubchemResp.transportError)
        (fun _ _ => ClassyResp.transportError) (fun _ => 0) [some "X"],
      r.name = "X" ∧ r.smiles = none ∧ r.inchikey = none ∧
      r.molecularFormula = none ∧ r.xlogp = none :=
  (pipeline_no_loss_on_failure (fun _ _ => PubchemResp.transportError)
    (fun _ _ => ClassyResp.transportError) (fun _ => 0) [some "X"] "X"
    (List.mem_singleton.mpr rfl) (fun _ => rfl)).1

/-- C5 counterexample: an all-blank first column does not surface an input
error — `process_file` completes normally with an empty output (and, the
loops being empty, no network call is ever attempted). -/
theorem empty_input_completes_normally :
    process_file (fun _ _ => PubchemResp.transportError)
      (fun _ _ => ClassyResp.transportError) (fun _ => 0)
      (Except.ok [none, none]) = Except.ok [] := rfl

/-- C5 amended: an empty or all-blank first column makes the run complete
normally with an empty output; no network call is attempted (the result is
independent of both service oracles), and no error is surfaced — only an
unreadable input file propagates an error. -/
theorem empty_input_amended (cells : List (Option String))
    (p p' : String → Nat → PubchemResp) (c c' : String → Nat → ClassyResp)
    (j j' : Nat → ℚ) (h : cells.filterMap id = []) :
    process_file p c j (Except.ok cells) = Except.ok [] ∧
    process_file p c j (Except.ok cells) = process_file p' c' j' (Except.ok cells) ∧
    (∀ e, process_file p c j (Except.error e) = Except.error e) := by
  have hempty : ∀ (q : String → Nat → PubchemResp) (d : String → Nat → ClassyResp)
      (i : Nat → ℚ), process_file q d i (Except.ok cells) = Except.ok [] := by
    intro q d i
    show Except.ok (pipeline q d i cells) = Except.ok []
    unfold pipeline
    rw [h]
    rfl
  exact ⟨hempty p c j, (hempty p c j).trans (hempty p' c' j').symm, fun e => rfl⟩

/-- Witness for `empty_input_amended`: a single-blank-cell column under two
different oracle pairs. -/
theorem empty_input_amended_witness :
    process_file (fun _ _ => PubchemResp.transportError)
        (fun _ _ => ClassyResp.transportError) (fun _ => 0) (Except.ok [none])
      = Except.ok [] ∧
    process_file (fun _ _ => PubchemResp.transportError)
        (fun _ _ => ClassyResp.transportError) (fun _ => 0) (Except.ok [none])
      = process_file (fun _ _ => PubchemResp.status 200 none)
          (fun _ _ => ClassyResp.status 200 none) (fun _ => 1) (Except.ok [none]) ∧
    (∀ e, process_file (fun _ _ => PubchemResp.transportError)
        (fun _ _ => ClassyResp.transportError) (fun _ => 0) (Except.error e)
      = Except.error e) :=
  empty_input_amended [none] (fun _ _ => PubchemResp.transportError)
    (fun _ _ => PubchemResp.status 200 none) (fun _ _ => ClassyResp.transportError)
    (fun _ _ => ClassyResp.status 200 none) (fun _ => 0) (fun _ => 1) rfl

/-- A non-empty non-blank column yields at least one deduplicated name. -/
theorem uniqueFirst_length_pos (cells : List (Option String))
    (h : cells.filterMap id ≠ []) : 1 ≤ (uniqueFirst (cells.filterMap id)).length := by
  rcases hc : cells.filterMap id with _ | ⟨a, t⟩
  · exact absurd hc h
  · rw [uniqueFirst, uniqueFirstAux, if_neg (List.not_mem_nil a)]
    exact Nat.succ_le_succ (Nat.zero_le _)

/-- The per-item progress increment lies in `(0, 1/2]`. -/
theorem reportTerm_bounds (n i : Nat) (hn : 1 ≤ n) (hi : i < n) :
    0 < ((i : ℚ) + 1) / (n : ℚ) * (1/2) ∧ ((i : ℚ) + 1) / (n : ℚ) * (1/2) ≤ 1/2 := by
  have hN : (0 : ℚ) < (n : ℚ) := by exact_mod_cast hn
  have hi1 : ((i : ℚ) + 1) ≤ (n : ℚ) := by exact_mod_cast hi
  constructor
  · have hpos : (0 : ℚ) < (i : ℚ) + 1 := by positivity
    exact mul_pos (div_pos hpos hN) (by norm_num)
  · have hle : ((i : ℚ) + 1) / (n : ℚ) ≤ 1 := (div_le_one hN).mpr hi1
    calc ((i : ℚ) + 1) / (n : ℚ) * (1/2) ≤ 1 * (1/2) :=
          mul_le_mul_of_nonneg_right hle (by norm_num)
      _ = 1/2 := by norm_num

/-- The per-item progress increment is strictly monotone in the item
index. -/
theorem reportTerm_mono (n : Nat) (hn : 1 ≤ n) {i j : Nat} (hij : i < j) :
    ((i : ℚ) + 1) / (n : ℚ) * (1/2) < ((j : ℚ) + 1) / (n : ℚ) * (1/2) := by
  have hN : (0 : ℚ) < (n : ℚ) := by exact_mod_cast hn
  have hlt : ((i : ℚ) + 1) < ((j : ℚ) + 1) := by exact_mod_cast Nat.succ_lt_succ hij
  exact mul_lt_mul_of_pos_right (div_lt_div_iff_of_pos_right hN |>.mpr hlt) (by norm_num)

/-- C9 part: stage-A updates lie in the first half of the range. -/
theorem stageAReports_bounds (n : Nat) (hn : 1 ≤ n) :
    ∀ p ∈ stageAReports n, 0 < p ∧ p ≤ 1/2 := by
  intro p hp
  rw [stageAReports, List.mem_map] at hp
  obtain ⟨i, hi, rfl⟩ := hp
  exact reportTerm_bounds n i hn (List.mem_range.mp hi)

/-- C9 part: stage-B updates lie in the second half of the range. -/
theorem stageBReports_bounds (n : Nat) (hn : 1 ≤ n) :
    ∀ p ∈ stageBReports n, 1/2 < p ∧ p ≤ 1 := by
  intro p hp
  rw [stageBReports, List.mem_map] at hp
  obtain ⟨i, hi, rfl⟩ := hp
  obtain ⟨h1, h2⟩ := reportTerm_bounds n i hn (List.mem_range.mp hi)
  constructor
  · linarith
  · linarith

/-- Stage-A reports are strictly increasing, hence non-decreasing. -/
theorem stageAReports_pairwise (n : Nat) (hn : 1 ≤ n) :
    (stageAReports n).Pairwise (· ≤ ·) := by
  rw [stageAReports, List.pairwise_map]
  exact (List.pairwise_lt_range n).imp (fun hij => le_of_lt (reportTerm_mono n hn hij))

/-- Stage-B reports are strictly increasing, hence non-decreasing. -/
theorem stageBReports_pairwise (n : Nat) (hn : 1 ≤ n) :
    (stageBReports n).Pairwise (· ≤ ·) := by
  rw [stageBReports, List.pairwise_map]
  refine (List.pairwise_lt_range n).imp (fun hij => ?_)
  have := reportTerm_mono n hn hij
  linarith

/-- Stage-B reports are pairwise distinct. -/
theorem stageBReports_nodup (n : Nat) (hn : 1 ≤ n) : (stageBReports n).Nodup := by
  show (stageBReports n).Pairwise (fun a b => a ≠ b)
  rw [stageBReports, List.pairwise_map]
  refine (List.pairwise_lt_range n).imp (fun hij => ?_)
  have := reportTerm_mono n hn hij
  intro heq
  rw [add_right_injective (1/2 : ℚ) |>.eq_iff] at heq
  exact absurd heq (ne_of_lt this)

/-- The final stage-B report is exactly 1. -/
theorem one_mem_stageBReports (n : Nat) (hn : 1 ≤ n) : (1 : ℚ) ∈ stageBReports n := by
  rw [stageBReports, List.mem_map]
  refine ⟨n - 1, List.mem_range.mpr (Nat.sub_lt hn Nat.one_pos), ?_⟩
  have hne : (n : ℚ) ≠ 0 := by
    have : (0 : ℚ) < (n : ℚ) := by exact_mod_cast hn
    exact ne_of_gt this
  have hcast : ((n - 1 : Nat) : ℚ) + 1 = (n : ℚ) := by
    rw [Nat.cast_sub hn]
    ring
  rw [hcast, div_self hne]
  norm_num

/-- C9 part: the whole report sequence is non-decreasing. -/
theorem progressReports_pairwise (n : Nat) (hn : 1 ≤ n) :
    (progressReports n).Pairwise (· ≤ ·) := by
  rw [progressReports]
  refine List.pairwise_cons.mpr ⟨?_, ?_⟩
  · intro b hb
    rcases List.mem_append.mp hb with h | h
    · exact le_of_lt (stageAReports_bounds n hn b h).1
    · have := (stageBReports_bounds n hn b h).1
      linarith
  · refine List.pairwise_append.mpr
      ⟨stageAReports_pairwise n hn, stageBReports_pairwise n hn, ?_⟩
    intro a ha b hb
    have h1 := (stageAReports_bounds n hn a ha).2
    have h2 := (stageBReports_bounds n hn b hb).1
    linarith

/-- C9 part: the value 1 is reported exactly once. -/
theorem progressReports_count_one (n : Nat) (hn : 1 ≤ n) :
    (progressReports n).count 1 = 1 := by
  have hA : (stageAReports n).count 1 = 0 := by
    rw [List.count_eq_zero]
    intro hmem
    have := (stageAReports_bounds n hn 1 hmem).2
    norm_num at this
  have hB : (stageBReports n).count 1 = 1 :=
    List.count_eq_one_of_mem (stageBReports_nodup n hn) (one_mem_stageBReports n hn)
  rw [progressReports]
  rw [List.count_cons, List.count_append, hA, hB]
  norm_num

/-- C9 part: the value 1 is the last report. -/
theorem progressReports_getLast (n : Nat) (hn : 1 ≤ n) :
    (progressReports n).getLast? = some 1 := by
  obtain ⟨m, rfl⟩ : ∃ m, n = m + 1 := ⟨n - 1, (Nat.succ_pred_eq_of_pos hn).symm⟩
  rw [progressReports, stageBReports, List.range_succ, List.map_append, List.map_cons,
    List.map_nil, ← List.append_assoc, ← List.cons_append, List.getLast?_concat]
  have hne : ((m : ℚ) + 1) ≠ 0 := by positivity
  congr 1
  push_cast
  rw [div_self hne]
  norm_num

/-- C9: over one run on a non-empty deduplicated input of `n` names, the
reported progress fractions (the initial 0, then the stage-A and stage-B
updates) are non-decreasing, the stage-A updates lie in `(0, 1/2]`, the
stage-B updates in `(1/2, 1]`, and the value 1 is reported exactly once,
as the final report. -/
theorem progress_monotone_halves (cells : List (Option String))
    (h : cells.filterMap id ≠ []) :
    (progressReports (uniqueFirst (cells.filterMap id)).length).Pairwise (· ≤ ·) ∧
    (∀ p ∈ stageAReports (uniqueFirst (cells.filterMap id)).length, 0 < p ∧ p ≤ 1/2) ∧
    (∀ p ∈ stageBReports (uniqueFirst (cells.filterMap id)).length, 1/2 < p ∧ p ≤ 1) ∧
    (progressReports (uniqueFirst (cells.filterMap id)).length).count 1 = 1 ∧
    (progressReports (uniqueFirst (cells.filterMap id)).length).getLast? = some 1 := by
  have hn : 1 ≤ (uniqueFirst (cells.filterMap id)).length := uniqueFirst_length_pos cells h
  exact ⟨progressReports_pairwise _ hn, stageAReports_bounds _ hn, stageBReports_bounds _ hn,
    progressReports_count_one _ hn, progressReports_getLast _ hn⟩

/-- Witness for `progress_monotone_halves` on the fixture input
`["Aspirin", "Water", "Aspirin"]` (two distinct names). -/
theorem progress_monotone_halves_witness :
    (progressReports (uniqueFirst ([some "Aspirin", some "Water",
        some "Aspirin"].filterMap id)).length).Pairwise (· ≤ ·) ∧
    (∀ p ∈ stageAReports (uniqueFirst ([some "Aspirin", some "Water",
        some "Aspirin"].filterMap id)).length, 0 < p ∧ p ≤ 1/2) ∧
    (∀ p ∈ stageBReports (uniqueFirst ([some "Aspirin", some "Water",
        some "Aspirin"].filterMap id)).length, 1/2 < p ∧ p ≤ 1) ∧
    (progressReports (uniqueFirst ([some "Aspirin", some "Water",
        some "Aspirin"].filterMap id)).length).count 1 = 1 ∧
    (progressReports (uniqueFirst ([some "Aspirin", some "Water",
        some "Aspirin"].filterMap id)).length).getLast? = some 1 :=
  progress_monotone_halves [some "Aspirin", some "Water", some "Aspirin"] (by decide)

end ChemExtractor
